import Mathlib

/-!
Verification development for the axeos-dashboard concurrent data-collection
and hot-reconfiguration runtime.

The Go sources are shallowly embedded: pure control flow is translated into
Lean functions, file and network I/O outcomes are passed in explicitly as
oracle arguments (read results, parse results, transport results), and the
stateful managers become explicit state-passing functions.  Machine integers
of the source are modelled as `Int`/`Nat` (no overflow is relevant to any
claim).  JSON values decoded into Go `interface\x7b\x7d` are modelled by the
inductive `JValue`; Go maps `map[string]T` are modelled as association lists
`List (String × T)` whose update mirrors Go map assignment.
-/

namespace AxeosDashboard

/-- A JSON-like dynamic value, modelling what Go json.Unmarshal produces for
an `interface\x7b\x7d` target.  Numbers are modelled as `Int` (no claim
depends on numeric payload contents). -/
inductive JValue where
  | null : JValue
  | bool (b : Bool) : JValue
  | num (n : Int) : JValue
  | str (s : String) : JValue
  | arr (elems : List JValue) : JValue
  | obj (fields : List (String × JValue)) : JValue

/-- Whether an `Except` is in the error case (Go: `err != nil`). -/
def isErr {ε α : Type} : Except ε α → Bool
  | .error _ => true
  | .ok _ => false

/-- The application configuration record, from `internal/config/config.go`
(struct `Config`).  The float64 field `axeos_dashboard_version` is omitted:
floating point carries no claim content.  The trailing `sync.RWMutex` is
modelled separately by the lock-event traces below. -/
structure Config where
  webServerPort : Int
  title : String
  axeosInstances : List (List (String × String))
  displayFields : JValue
  miningCoreEnabled : Bool
  miningCoreURL : List (List (String × String))
  miningCoreDisplayFields : JValue
  cryptNodesEnabled : Bool
  cryptoNodes : JValue
  disableAuthentication : Bool
  disableSettings : Bool
  disableConfigurations : Bool
  cookieMaxAge : Int
  configurationOutdated : Bool
  axeosAPI : List (String × String)
  dataCollectionEnabled : Bool
  collectionIntervalSeconds : Int
  dataRetentionDays : Int

/-- The Go zero value of `Config` (what `var config Config` starts from
before json.Unmarshal fills fields in). -/
def zeroConfig : Config where
  webServerPort := 0
  title := ""
  axeosInstances := []
  displayFields := .null
  miningCoreEnabled := false
  miningCoreURL := []
  miningCoreDisplayFields := .null
  cryptNodesEnabled := false
  cryptoNodes := .null
  disableAuthentication := false
  disableSettings := false
  disableConfigurations := false
  cookieMaxAge := 0
  configurationOutdated := false
  axeosAPI := []
  dataCollectionEnabled := false
  collectionIntervalSeconds := 0
  dataRetentionDays := 0

instance : Inhabited Config := ⟨zeroConfig⟩

/-- The default-application block of `Manager.LoadConfig`
(`internal/config/config.go`): clear `ConfigurationOutdated`, default
`CookieMaxAge` to 3600, `CollectionIntervalSeconds` to 300 and
`DataRetentionDays` to 30 when the parsed value is 0. -/
def applyDefaults (c : Config) : Config :=
  { c with
    configurationOutdated := false
    cookieMaxAge := if c.cookieMaxAge = 0 then 3600 else c.cookieMaxAge
    collectionIntervalSeconds :=
      if c.collectionIntervalSeconds = 0 then 300 else c.collectionIntervalSeconds
    dataRetentionDays := if c.dataRetentionDays = 0 then 30 else c.dataRetentionDays }

/-- The configuration manager (`internal/config/config.go`, struct
`Manager`): the in-memory snapshot pointer.  `config = none` models the Go
nil pointer before any successful load. -/
structure Manager where
  config : Option Config

/-- `Manager.GetConfig`: returns the current snapshot (possibly nil). -/
def getConfig (m : Manager) : Option Config :=
  m.config

/-- The manager as created by `GetManager` (`once.Do` body): only the config
path and logger are set, the snapshot pointer is the Go zero value nil. -/
def newManager : Manager :=
  { config := none }

/-- State threaded through the file-backed operations: the backing file
content (`.error` models an unreadable or absent file) and the manager. -/
structure StoreState where
  file : Except String String
  mgr : Manager

/-- Oracles for the operations the Go code delegates to the json package and
the OS: parsing the file into a `Config`, parsing it into a raw
`map[string]interface\x7b\x7d` (values kept opaque of type `V`), marshaling
such a map back to text, and whether `os.WriteFile` fails. -/
structure ConfigOps (V : Type) where
  parseConfig : String → Except String Config
  parseMap : String → Except String (List (String × V))
  marshalIndent : List (String × V) → Except String String
  writeFails : Bool

/-- `Manager.LoadConfig` (`internal/config/config.go`): read the backing
file, parse it, apply defaults, store the new snapshot.  On any error the
manager is left untouched and the error is returned. -/
def loadConfigOp {V : Type} (ops : ConfigOps V) (s : StoreState) :
    Except String Config × StoreState :=
  match s.file with
  | .error e => (.error ("error reading config file: " ++ e), s)
  | .ok data =>
    match ops.parseConfig data with
    | .error e => (.error ("error parsing config file: " ++ e), s)
    | .ok parsed =>
      let config := applyDefaults parsed
      (.ok config, { s with mgr := { config := some config } })

/-- Go map assignment `m[k] = v` on the association-list model: overwrite an
existing binding for `k`, otherwise append a new one. -/
def mapSet {V : Type} (m : List (String × V)) (k : String) (v : V) :
    List (String × V) :=
  if m.any (fun p => p.1 == k) then
    m.map (fun p => if p.1 == k then (k, v) else p)
  else
    m ++ [(k, v)]

/-- The update loop of `Manager.UpdateConfig`:
`for key, value := range updates \x7b currentConfig[key] = value \x7d`. -/
def applyUpdates {V : Type} (current updates : List (String × V)) :
    List (String × V) :=
  updates.foldl (fun m kv => mapSet m kv.1 kv.2) current

/-- `Manager.UpdateConfig` (`internal/config/config.go`): read the backing
file, parse it as a raw map, overwrite each patch key, marshal, write the
file back, then reload via `LoadConfig`.  Every failing step returns the
error with the state reached so far (the snapshot is only ever replaced by
the final `LoadConfig`). -/
def updateConfigOp {V : Type} (ops : ConfigOps V)
    (updates : List (String × V)) (s : StoreState) :
    Except String Unit × StoreState :=
  match s.file with
  | .error e => (.error ("error reading config file: " ++ e), s)
  | .ok data =>
    match ops.parseMap data with
    | .error e => (.error ("error parsing config file: " ++ e), s)
    | .ok currentConfig =>
      let merged := applyUpdates currentConfig updates
      match ops.marshalIndent merged with
      | .error e => (.error ("error marshaling config: " ++ e), s)
      | .ok updatedData =>
        if ops.writeFails then
          (.error "error writing config file", s)
        else
          let s1 : StoreState := { s with file := .ok updatedData }
          match loadConfigOp ops s1 with
          | (.error e, s2) => (.error e, s2)
          | (.ok _, s2) => (.ok (), s2)

/-! ### Lock-event traces of the ConfigStore write operations

To settle the claim about where the write lock is held, the two write
operations are additionally embedded as traces of atomic events in source
order: lock acquisition and release (`m.mu.Lock` / `m.mu.Unlock`), file I/O
(`os.ReadFile` / `os.WriteFile`) and the snapshot-pointer swap
(`m.config = &config`). -/

/-- An atomic event of a ConfigStore operation. -/
inductive LockEvent where
  | acquireWrite : LockEvent
  | releaseWrite : LockEvent
  | fileRead : LockEvent
  | fileWrite : LockEvent
  | snapshotSwap : LockEvent
deriving DecidableEq, Repr

/-- The event trace of `Manager.LoadConfig`, parameterised over which
fallible steps succeed: `mu.Lock()` with deferred unlock, then
`os.ReadFile`, then on success of read and parse the snapshot swap, then the
deferred `mu.Unlock()` on every return path. -/
def loadConfigEvents (readOk parseOk : Bool) : List LockEvent :=
  [.acquireWrite, .fileRead] ++
    (if readOk && parseOk then [.snapshotSwap] else []) ++ [.releaseWrite]

/-- The event trace of `Manager.UpdateConfig`: `mu.Lock()` (deferred
unlock), `os.ReadFile`, parse, marshal, `os.WriteFile`, then the explicit
`mu.Unlock()`, the nested `LoadConfig` call, and the final `mu.Lock()`
whose deferred unlock fires at return. -/
def updateConfigEvents (readOk parseOk marshalOk writeOk reloadReadOk reloadParseOk : Bool) :
    List LockEvent :=
  [.acquireWrite, .fileRead] ++
    if !readOk then [.releaseWrite] else
    if !parseOk then [.releaseWrite] else
    if !marshalOk then [.releaseWrite] else
    [.fileWrite] ++
      if !writeOk then [.releaseWrite] else
      [.releaseWrite] ++ loadConfigEvents reloadReadOk reloadParseOk ++
        [.acquireWrite, .releaseWrite]

/-- Whether some file I/O event of the trace happens while the write lock is
held (lock depth tracked by the accumulator). -/
def ioUnderLock : Nat → List LockEvent → Bool
  | _, [] => false
  | depth, e :: rest =>
    match e with
    | .acquireWrite => ioUnderLock (depth + 1) rest
    | .releaseWrite => ioUnderLock (depth - 1) rest
    | .fileRead => decide (0 < depth) || ioUnderLock depth rest
    | .fileWrite => decide (0 < depth) || ioUnderLock depth rest
    | .snapshotSwap => ioUnderLock depth rest

/-! ### Scheduler (`internal/scheduler`, file concatenated into
`internal/logger/logger.go` in this source snapshot) -/

/-- A scheduled collection task: name and interval (in seconds; the source
stores a `time.Duration` built as `seconds * time.Second`). -/
structure Task where
  name : String
  intervalSeconds : Int
deriving DecidableEq, Repr

/-- The interval computation at the head of `Manager.registerTasks`:
default 5 minutes, overridden by `cfg.CollectionIntervalSeconds` when that
is positive. -/
def effectiveIntervalSeconds (cfg : Config) : Int :=
  if cfg.collectionIntervalSeconds > 0 then cfg.collectionIntervalSeconds else 300

/-- `Manager.registerTasks`: one task per enabled, non-empty peer
collection, all sharing the computed collection interval.  (The scheduler
source refers to the device list as `cfg.BitaxeInstances`; it is the field
serialised as `axeos_instances` in `config.Config`.) -/
def registerTasks (cfg : Config) : List Task :=
  let collectionInterval := effectiveIntervalSeconds cfg
  (if cfg.axeosInstances.length > 0 then
    [{ name := "AxeOS Miners Collection", intervalSeconds := collectionInterval }]
   else []) ++
  (if cfg.miningCoreEnabled && cfg.miningCoreURL.length > 0 then
    [{ name := "Mining Core Pools Collection", intervalSeconds := collectionInterval }]
   else []) ++
  (if cfg.cryptNodesEnabled then
    [{ name := "Crypto Nodes Collection", intervalSeconds := collectionInterval }]
   else [])

/-- The effective task interval produced by the whole pipeline for a raw
configured value: `LoadConfig` first applies the zero-value default (0
becomes 300), then `registerTasks` keeps positive values and replaces the
rest by the 5-minute default. -/
def scheduledIntervalSeconds (configured : Int) : Int :=
  effectiveIntervalSeconds
    (applyDefaults { zeroConfig with collectionIntervalSeconds := configured })

/-- Scheduler manager state (`scheduler.Manager`): `running` models
`cancel != nil`, `tasks` the registered task slice. -/
structure SchedState where
  running : Bool
  tasks : List Task
deriving DecidableEq, Repr

/-- `scheduler.Manager.Start`: reject when already running; otherwise set
the cancellation context (making the state Running), load the
configuration, and on success register the tasks.  Note the source creates
the context before loading, so a failed load leaves the state Running. -/
def schedulerStart (loadRes : Except String Config) (s : SchedState) :
    Except String Unit × SchedState :=
  if s.running then
    (.error "scheduler already running", s)
  else
    let s1 : SchedState := { s with running := true }
    match loadRes with
    | .error e => (.error ("failed to load config: " ++ e), s1)
    | .ok cfg => (.ok (), { s1 with tasks := s1.tasks ++ registerTasks cfg })

/-- `scheduler.Manager.Stop`: return immediately when not running
(`cancel == nil`); otherwise cancel, wait for the tasks, clear the
cancellation context and reset the task slice. -/
def schedulerStop (s : SchedState) : SchedState :=
  if s.running then { running := false, tasks := [] } else s

/-- `scheduler.Manager.IsRunning`. -/
def schedulerIsRunning (s : SchedState) : Bool :=
  s.running

/-! ### Aggregate fan-out (`internal/handlers/systems.go`)

The per-peer goroutine bodies are embedded as pure functions of the fetch
outcome; the channel fan-in collapses to a `List.map` over the peer list
(the spec itself promises no output order). -/

/-- The outcome of one `http.Get` against a peer, as the handler observes
it: a transport error, or a response with its status code, status text and
the result of JSON-decoding the body into a string-keyed map. -/
inductive HttpGetResult where
  | netError (msg : String) : HttpGetResult
  | response (statusCode : Nat) (statusText : String)
      (body : Except String (List (String × JValue))) : HttpGetResult

/-- The AxeOS per-peer goroutine body in `HandleSystemsInfo`: a network
error, a non-200 status or a JSON decode error each produce one error map;
success produces the decoded data with `id` set to the peer name. -/
def minerOutcome (name : String) (res : HttpGetResult) : List (String × JValue) :=
  match res with
  | .netError msg =>
    [("id", .str name), ("hostname", .str name),
     ("status", .str "Error"), ("message", .str msg)]
  | .response statusCode statusText body =>
    if statusCode ≠ 200 then
      [("id", .str name), ("hostname", .str name), ("status", .str "Error"),
       ("message", .str (toString statusCode ++ " " ++ statusText))]
    else
      match body with
      | .error msg =>
        [("id", .str name), ("hostname", .str name),
         ("status", .str "Error"), ("message", .str msg)]
      | .ok data => mapSet data "id" (.str name)

/-- The configured AxeOS peer set: `cfg.AxeosInstances` is a slice of
one-entry maps; the handler iterates every (name, url) pair of every map. -/
def axeosPeers (instances : List (List (String × String))) : List (String × String) :=
  instances.flatten

/-- The AxeOS fan-out of `HandleSystemsInfo`: one outcome per configured
peer, each from its own fetch result. -/
def fanOutMiners (fetch : String → String → HttpGetResult)
    (instances : List (List (String × String))) : List (List (String × JValue)) :=
  (axeosPeers instances).map (fun p => minerOutcome p.1 (fetch p.1 p.2))

/-- `handlers.MiningCoreInstanceData`. -/
structure MiningCoreInstanceData where
  instanceName : String
  status : String
  message : String
  pools : List (List (String × JValue))

/-- The pools extraction of the Mining Core goroutine body:
`mcData["pools"]` as an array, keeping only its object elements. -/
def extractPools (mcData : List (String × JValue)) : List (List (String × JValue)) :=
  match List.lookup "pools" mcData with
  | some (.arr poolsData) =>
    poolsData.filterMap (fun pool =>
      match pool with
      | .obj poolMap => some poolMap
      | _ => none)
  | _ => []

/-- The Mining Core per-peer goroutine body in `HandleSystemsInfo`. -/
def miningCoreOutcome (name : String) (res : HttpGetResult) : MiningCoreInstanceData :=
  match res with
  | .netError msg =>
    { instanceName := name, status := "Error", message := msg, pools := [] }
  | .response statusCode statusText body =>
    if statusCode ≠ 200 then
      { instanceName := name, status := "Error",
        message := toString statusCode ++ " " ++ statusText, pools := [] }
    else
      match body with
      | .error msg =>
        { instanceName := name, status := "Error", message := msg, pools := [] }
      | .ok mcData =>
        { instanceName := name, status := "OK", message := "",
          pools := extractPools mcData }

/-- The Mining Core fan-out of `HandleSystemsInfo` (the branch guarded by
`cfg.MiningCoreEnabled && len(cfg.MiningCoreURL) > 0`). -/
def fanOutMiningCore (fetch : String → String → HttpGetResult)
    (instances : List (List (String × String))) : List MiningCoreInstanceData :=
  instances.flatten.map (fun p => miningCoreOutcome p.1 (fetch p.1 p.2))

/-! ### JSON-RPC client (`internal/services`, source file `rpc_client` in
the unnamed set) -/

/-- `services.RPCError`. -/
structure RPCError where
  code : Int
  message : String

/-- `services.RPCResponse` as produced by json.Unmarshal: a result value,
an optional error object and an id. -/
structure RPCResponse where
  result : JValue
  rpcErrField : Option RPCError
  id : String

/-- `services.RPCNodeConfig` (from rpcConfig.json). -/
structure RPCNodeConfig where
  nodeID : String
  nodeRPCAddress : String
  nodeRPCPort : Int
  nodeRPAuth : String

/-- What `r.client.Do(req)` plus `io.ReadAll` yields: a transport failure,
or an HTTP response with its status code and full body text (any status
code, including non-2xx, lands here with its body). -/
inductive TransportResult where
  | failure (msg : String) : TransportResult
  | success (statusCode : Nat) (body : String) : TransportResult

/-- The response-handling tail of `RPCClient.CallRPC`, from `client.Do`
onward: transport error, empty body, unparseable body and a non-nil RPC
error field each fail; otherwise the result field is returned.  The status
code is only ever quoted inside the empty-body error message, never
branched on. -/
def handleRPCResponse (parse : String → Option RPCResponse) :
    TransportResult → Except String JValue
  | .failure msg => .error ("RPC request error: " ++ msg)
  | .success statusCode body =>
    if body.length = 0 then
      .error ("empty response from RPC server. Check RPC credentials (rpcauth) and rpcallowip in node config. Status: "
        ++ toString statusCode)
    else
      match parse body with
      | none => .error ("failed to parse RPC response - " ++ body)
      | some rpcResp =>
        match rpcResp.rpcErrField with
        | some e => .error ("RPC error " ++ toString e.code ++ ": " ++ e.message)
        | none => .ok rpcResp.result

/-- `RPCClient.getRPCConnectionDetails`: fail when no config is loaded,
otherwise linear search by node id. -/
def getRPCConnectionDetails (rpcConfig : Option (List RPCNodeConfig))
    (nodeID : String) : Except String RPCNodeConfig :=
  match rpcConfig with
  | none => .error "RPC config not loaded"
  | some nodes =>
    match nodes.find? (fun n => n.nodeID == nodeID) with
    | some node => .ok node
    | none => .error ("node ID " ++ nodeID ++ " not found in rpcConfig.json")

/-- `RPCClient.CallRPC`: lazily load the RPC config (`loadRes` is the
outcome of `loadRPCConfig` when the cached config is nil), look up the
node, then issue the request and handle the response (`transport` is the
network oracle, `parse` the json.Unmarshal oracle).  Request marshaling and
`http.NewRequest` cannot fail for this fixed request shape and are not
modelled as fallible. -/
def callRPC (rpcConfig : Option (List RPCNodeConfig))
    (loadRes : Except String (List RPCNodeConfig)) (nodeID : String)
    (transport : RPCNodeConfig → TransportResult)
    (parse : String → Option RPCResponse) : Except String JValue :=
  let cfg : Except String (List RPCNodeConfig) :=
    match rpcConfig with
    | none => loadRes
    | some c => .ok c
  match cfg with
  | .error e => .error e
  | .ok nodes =>
    match getRPCConnectionDetails (some nodes) nodeID with
    | .error e => .error e
    | .ok nodeConfig => handleRPCResponse parse (transport nodeConfig)

/-- Failure condition as the claim words it (spec-side definition, to be
compared with the code-side `callRPC`): the transport request failed, the
body is empty, the body does not parse as a JSON-RPC response, or the
parsed response carries a non-nil error field.  The status code does not
appear. -/
def specRPCFailure (parse : String → Option RPCResponse) :
    TransportResult → Bool
  | .failure _ => true
  | .success _ body =>
    body.length = 0 ||
      match parse body with
      | none => true
      | some rpcResp => rpcResp.rpcErrField.isSome

/-! ### Crypto node service (`internal/services`, source file
`crypto_node_service` in the unnamed set) -/

/-- `services.NodeConfig` as parsed from config.json. -/
structure NodeConfig where
  nodeType : String
  nodeName : String
  nodeID : String
  nodeAlgo : String
deriving DecidableEq, Repr

/-- `services.NodeData`: the aggregated per-node outcome.  Go interface
fields that stay nil are modelled as `none`. -/
structure NodeData where
  id : String
  nodeID : String
  nodeType : String
  nodeAlgo : String
  status : String
  message : String
  blockchainInfo : Option JValue
  networkTotals : Option JValue
  balance : Option JValue
  networkInfo : Option JValue
  displayFields : Option JValue

/-- `CryptoNodeService.getBlockchainInfo`: wrap a CallRPC failure with the
method-specific context. -/
def getBlockchainInfo (nodeID : String) (raw : Except String JValue) :
    Except String JValue :=
  match raw with
  | .error e => .error ("error fetching blockchain info for " ++ nodeID ++ ": " ++ e)
  | .ok v => .ok v

/-- `CryptoNodeService.getNetworkTotals`. -/
def getNetworkTotals (nodeID : String) (raw : Except String JValue) :
    Except String JValue :=
  match raw with
  | .error e => .error ("error fetching network totals for " ++ nodeID ++ ": " ++ e)
  | .ok v => .ok v

/-- `CryptoNodeService.getBalance`. -/
def getBalance (nodeID : String) (raw : Except String JValue) :
    Except String JValue :=
  match raw with
  | .error e => .error ("error fetching balance for " ++ nodeID ++ ": " ++ e)
  | .ok v => .ok v

/-- `CryptoNodeService.getNetworkInfo`. -/
def getNetworkInfo (nodeID : String) (raw : Except String JValue) :
    Except String JValue :=
  match raw with
  | .error e => .error ("error fetching network info for " ++ nodeID ++ ": " ++ e)
  | .ok v => .ok v

/-- The error-message concatenation of `fetchCryptoNodeData`: every failed
sub-call contributes its message, the first three each followed by a
semicolon separator. -/
def cryptoErrMsg (bcRes ntRes balRes niRes : Except String JValue) : String :=
  (match bcRes with | .error e => e ++ "; " | .ok _ => "") ++
  (match ntRes with | .error e => e ++ "; " | .ok _ => "") ++
  (match balRes with | .error e => e ++ "; " | .ok _ => "") ++
  (match niRes with | .error e => e | .ok _ => "")

/-- `CryptoNodeService.fetchCryptoNodeData`: issue the four RPC sub-calls
(the `rpc` oracle maps node id and method to the CallRPC outcome); if any
failed, report the node with status `Error` and the concatenated message
and no payloads; otherwise report `online` with all four payloads and the
display fields. -/
def fetchCryptoNodeData (rpc : String → String → Except String JValue)
    (nodeConfig : NodeConfig) (displayFields : Option JValue) : NodeData :=
  let nodeID := nodeConfig.nodeID
  let bcRes := getBlockchainInfo nodeID (rpc nodeID "getblockchaininfo")
  let ntRes := getNetworkTotals nodeID (rpc nodeID "getnettotals")
  let balRes := getBalance nodeID (rpc nodeID "getbalance")
  let niRes := getNetworkInfo nodeID (rpc nodeID "getnetworkinfo")
  let nodeName := if nodeConfig.nodeName = "" then nodeID else nodeConfig.nodeName
  if isErr bcRes || isErr ntRes || isErr balRes || isErr niRes then
    { id := nodeName, nodeID := nodeID, nodeType := nodeConfig.nodeType,
      nodeAlgo := "", status := "Error",
      message := cryptoErrMsg bcRes ntRes balRes niRes,
      blockchainInfo := none, networkTotals := none, balance := none,
      networkInfo := none, displayFields := none }
  else
    { id := nodeName, nodeID := nodeID, nodeType := nodeConfig.nodeType,
      nodeAlgo := nodeConfig.nodeAlgo, status := "online", message := "",
      blockchainInfo := bcRes.toOption, networkTotals := ntRes.toOption,
      balance := balRes.toOption, networkInfo := niRes.toOption,
      displayFields := displayFields }

/-- One string field of a node entry in the cryptoNodes configuration
(Go: `nodeMap["NodeType"].(string)` with the zero value on failure). -/
def getStringField (m : List (String × JValue)) (k : String) : String :=
  match List.lookup k m with
  | some (.str s) => s
  | _ => ""

/-- Parsing one node object of the `Nodes` array in
`FetchAllCryptoNodes`. -/
def parseNodeConfig (m : List (String × JValue)) : NodeConfig :=
  { nodeType := getStringField m "NodeType"
    nodeName := getStringField m "NodeName"
    nodeID := getStringField m "NodeId"
    nodeAlgo := getStringField m "NodeAlgo" }

/-- The node-collection loop of `FetchAllCryptoNodes`: for each object item
carrying a `Nodes` array, append the parse of each object element. -/
def collectNodes (items : List JValue) : List NodeConfig :=
  items.foldl
    (fun acc item =>
      match item with
      | .obj itemMap =>
        match List.lookup "Nodes" itemMap with
        | some (.arr nodesArray) =>
          acc ++ nodesArray.filterMap (fun nodeRaw =>
            match nodeRaw with
            | .obj nodeMap => some (parseNodeConfig nodeMap)
            | _ => none)
        | _ => acc
      | _ => acc)
    []

/-- The display-fields extraction loop of `FetchAllCryptoNodes`: the last
object item carrying a `NodeDisplayFields` key wins. -/
def collectDisplayFields (items : List JValue) : Option JValue :=
  items.foldl
    (fun acc item =>
      match item with
      | .obj itemMap =>
        match List.lookup "NodeDisplayFields" itemMap with
        | some ndf => some ndf
        | none => acc
      | _ => acc)
    none

/-- `CryptoNodeService.FetchAllCryptoNodes`: empty result when disabled,
when the cryptoNodes config is not a non-empty array, or when no node
parses; otherwise one `fetchCryptoNodeData` outcome per parsed node (the
per-node goroutines and channel collapse to a map). -/
def fetchAllCryptoNodes (rpc : String → String → Except String JValue)
    (cfg : Config) : List NodeData :=
  if !cfg.cryptNodesEnabled then []
  else
    match cfg.cryptoNodes with
    | .arr cryptoNodes =>
      if cryptoNodes.length = 0 then []
      else
        let nodes := collectNodes cryptoNodes
        let displayFields := collectDisplayFields cryptoNodes
        if nodes.length = 0 then []
        else nodes.map (fun nc => fetchCryptoNodeData rpc nc displayFields)
    | _ => []

/-! ### Boot-mode gate (`dynamicHandler.ServeHTTP` in the main package)

The handler reads and writes `h.isBootstrapMode` and performs the one-time
initialization with no synchronisation whatsoever, so its behaviour under
concurrent requests is modelled by an explicit interleaving semantics: each
request is a fixed sequence of atomic actions against the shared gate
state, and a schedule decides which of two requests performs its next
action at each step. -/

/-- The shared state touched by `dynamicHandler.ServeHTTP`:
the `isBootstrapMode` flag, the number of times the one-time initialization
(JWT secret loading, configuration load, handler construction) has run, and
the number of requests answered. -/
structure GateGlobal where
  isBootstrapMode : Bool
  initCount : Nat
  answered : Nat
deriving DecidableEq, Repr

/-- One atomic action of a request passing through `ServeHTTP`:
read the mode flag (and the config-files-exist check), perform the
initialization, clear the mode flag, and finally dispatch and answer. -/
inductive GateAction where
  | checkMode : GateAction
  | doInit : GateAction
  | clearMode : GateAction
  | respond : GateAction
deriving DecidableEq, Repr

/-- The action sequence of one request through `ServeHTTP` when the
configuration artifacts exist and initialization succeeds (the
bootstrap-to-normal transition window of the claim). -/
def requestProgram : List GateAction :=
  [.checkMode, .doInit, .clearMode, .respond]

/-- The per-request view: whether this request observed the gate in
bootstrap mode with the config files present, and its remaining actions. -/
structure ReqState where
  saw : Bool
  rest : List GateAction
deriving DecidableEq, Repr

/-- A fresh request about to enter `ServeHTTP`. -/
def newRequest : ReqState :=
  { saw := false, rest := requestProgram }

/-- Effect of one atomic action, mirroring the statements of `ServeHTTP`:
`checkMode` evaluates `h.isBootstrapMode && CheckConfigFilesExist(...)`;
`doInit` runs the initialization body only for a request that observed the
transition; `clearMode` executes `h.isBootstrapMode = false` for such a
request; `respond` dispatches to a handler and answers the request. -/
def execAction (filesExist : Bool) (g : GateGlobal) (saw : Bool) :
    GateAction → GateGlobal × Bool
  | .checkMode => (g, g.isBootstrapMode && filesExist)
  | .doInit => (if saw then { g with initCount := g.initCount + 1 } else g, saw)
  | .clearMode => (if saw then { g with isBootstrapMode := false } else g, saw)
  | .respond => ({ g with answered := g.answered + 1 }, saw)

/-- Run the next pending action of one request. -/
def gateStep (filesExist : Bool) (g : GateGlobal) (r : ReqState) :
    GateGlobal × ReqState :=
  match r.rest with
  | [] => (g, r)
  | a :: more =>
    let (g2, saw2) := execAction filesExist g r.saw a
    (g2, { saw := saw2, rest := more })

/-- Two concurrent requests. -/
structure TwoReqs where
  r0 : ReqState
  r1 : ReqState
deriving DecidableEq, Repr

/-- Run a schedule over two concurrent requests: each schedule entry picks
which request executes its next atomic action (`false` for the first
request, `true` for the second). -/
def runSched (filesExist : Bool) :
    GateGlobal × TwoReqs → List Bool → GateGlobal × TwoReqs
  | s, [] => s
  | (g, rs), pick :: sched =>
    if pick then
      let (g2, r1) := gateStep filesExist g rs.r1
      runSched filesExist (g2, { rs with r1 := r1 }) sched
    else
      let (g2, r0) := gateStep filesExist g rs.r0
      runSched filesExist (g2, { rs with r0 := r0 }) sched

/-- The gate just before the transition: bootstrap mode, nothing
initialized, nothing answered, two fresh requests. -/
def gateStart : GateGlobal × TwoReqs :=
  (⟨true, 0, 0⟩, ⟨newRequest, newRequest⟩)

/-- All Bool lists of the given length. -/
def allBoolLists : Nat → List (List Bool)
  | 0 => [[]]
  | n + 1 =>
    (allBoolLists n).map (fun l => false :: l) ++
      (allBoolLists n).map (fun l => true :: l)

/-- All complete schedules of two four-action requests: length-8 pick
sequences giving each request exactly its four actions. -/
def allCompleteScheds : List (List Bool) :=
  (allBoolLists 8).filter (fun l => l.count true = 4)

/-- A racy schedule: both requests read `isBootstrapMode` before either
clears it, then each completes. -/
def racySched : List Bool :=
  [false, true, false, false, false, true, true, true]

/-- The serialized schedule: the first request runs to completion, then the
second. -/
def serialSched01 : List Bool :=
  [false, false, false, false, true, true, true, true]

/-- The serialized schedule with the second request first. -/
def serialSched10 : List Bool :=
  [true, true, true, true, false, false, false, false]

/-- The gate invariants that do hold of every complete two-request
schedule: both requests are answered, and the one-time initialization runs
at least once and at most once per request. -/
def gateCheck (sched : List Bool) : Bool :=
  let g := (runSched true gateStart sched).1
  decide (g.answered = 2) && decide (1 ≤ g.initCount) && decide (g.initCount ≤ 2)

/-- A concrete json.Unmarshal oracle: only the body "B" parses, into a
successful JSON-RPC response with a null result. -/
def wParse : String → Option RPCResponse :=
  fun s => if s = "B" then some { result := .null, rpcErrField := none, id := "axeos-dashboard" } else none

/-- A concrete RPC node entry. -/
def wNode : RPCNodeConfig :=
  { nodeID := "n1", nodeRPCAddress := "addr", nodeRPCPort := 14022,
    nodeRPAuth := "user:pass" }

/-- A concrete CallRPC oracle on which every sub-call fails. -/
def wFailRpc : String → String → Except String JValue :=
  fun _ _ => .error "boom"

/-- A concrete CallRPC oracle on which every sub-call succeeds. -/
def wOkRpc : String → String → Except String JValue :=
  fun _ _ => .ok .null

/-- A concrete crypto node entry. -/
def wNodeCfg : NodeConfig :=
  { nodeType := "DGB", nodeName := "Node One", nodeID := "n1",
    nodeAlgo := "sha256d" }

/-- A concrete cryptoNodes configuration array with one node. -/
def wItems : List JValue :=
  [.obj [("Nodes", .arr [.obj [("NodeId", .str "n1")]])]]

/-- A concrete configuration with crypto nodes enabled. -/
def wCfg : Config :=
  { zeroConfig with cryptNodesEnabled := true, cryptoNodes := .arr wItems }

/-! ## Shared helper lemmas -/

/-- A failed `LoadConfig` leaves the store state untouched. -/
theorem loadConfigOp_error_preserves {V : Type} (ops : ConfigOps V)
    (s : StoreState) (e : String)
    (h : (loadConfigOp ops s).1 = .error e) : (loadConfigOp ops s).2 = s := by
  unfold loadConfigOp at h ⊢
  cases hf : s.file with
  | error m => simp [hf]
  | ok data =>
    cases hp : ops.parseConfig data with
    | error m => simp [hf, hp]
    | ok parsed => simp [hf, hp] at h

/-! ## Claim theorems -/

/-- Claim C9: before any successful load the manager created by
`GetManager` answers `GetConfig` with the nil snapshot, and a failed
`LoadConfig` does not change that, so dereferencing callers implicitly
require a prior successful `LoadConfig`. -/
theorem C9_get_before_load_is_nil :
    getConfig newManager = none ∧
      ∀ (V : Type) (ops : ConfigOps V) (s : StoreState) (e : String),
        s.mgr = newManager → (loadConfigOp ops s).1 = .error e →
          getConfig (loadConfigOp ops s).2.mgr = none := by
  refine ⟨rfl, ?_⟩
  intro V ops s e hmgr herr
  rw [loadConfigOp_error_preserves ops s e herr, hmgr]
  rfl

/-- Witness for C9 at a concrete failing load. -/
theorem C9_get_before_load_is_nil_witness :
    getConfig (loadConfigOp
      ⟨fun _ => .error "bad", fun _ => .ok ([] : List (String × Unit)),
        fun _ => .ok "", false⟩
      ⟨.error "gone", newManager⟩).2.mgr = none :=
  C9_get_before_load_is_nil.2 Unit
    ⟨fun _ => .error "bad", fun _ => .ok [], fun _ => .ok "", false⟩
    ⟨.error "gone", newManager⟩ "error reading config file: gone" rfl rfl

/-- Claim C3: when `Manager.UpdateConfig` fails at any step (file read,
parse, marshal, write-back, or the reload), the error is returned and the
in-memory snapshot visible through `GetConfig` is exactly the previous
one. -/
theorem C3_update_failure_preserves_snapshot :
    ∀ (V : Type) (ops : ConfigOps V) (updates : List (String × V))
      (s : StoreState) (e : String),
      (updateConfigOp ops updates s).1 = .error e →
        (updateConfigOp ops updates s).2.mgr = s.mgr ∧
        getConfig (updateConfigOp ops updates s).2.mgr = getConfig s.mgr := by
  intro V ops updates s e h
  suffices hm : (updateConfigOp ops updates s).2.mgr = s.mgr by
    exact ⟨hm, by rw [getConfig, getConfig, hm]⟩
  unfold updateConfigOp at h ⊢
  cases hf : s.file with
  | error m => simp [hf]
  | ok data =>
    simp only [hf] at h ⊢
    cases hp : ops.parseMap data with
    | error m => simp [hp]
    | ok currentConfig =>
      simp only [hp] at h ⊢
      cases hmar : ops.marshalIndent (applyUpdates currentConfig updates) with
      | error m => simp [hmar]
      | ok updatedData =>
        simp only [hmar] at h ⊢
        cases hw : ops.writeFails with
        | true => simp [hw]
        | false =>
          simp only [hw, Bool.false_eq_true, if_false] at h ⊢
          rcases hl : loadConfigOp ops { s with file := .ok updatedData } with ⟨res, s2⟩
          cases res with
          | ok c =>
            rw [hl] at h
            simp at h
          | error e2 =>
            have hpres :=
              loadConfigOp_error_preserves ops { s with file := .ok updatedData } e2
                (by rw [hl])
            rw [hl] at hpres
            have h2 : s2 = { s with file := .ok updatedData } := hpres
            rw [h2]

/-- Witness for C3 at a concrete failing update (unreadable backing
file). -/
theorem C3_update_failure_preserves_snapshot_witness :
    (updateConfigOp
      ⟨fun _ => .ok zeroConfig, fun _ => .ok ([] : List (String × Unit)),
        fun _ => .ok "", false⟩
      [("k", ())] ⟨.error "gone", { config := some zeroConfig }⟩).2.mgr =
      { config := some zeroConfig } :=
  (C3_update_failure_preserves_snapshot Unit
    ⟨fun _ => .ok zeroConfig, fun _ => .ok [], fun _ => .ok "", false⟩
    [("k", ())] ⟨.error "gone", { config := some zeroConfig }⟩
    "error reading config file: gone" rfl).1

/-- Claim C7: the scheduler follows Stopped to Running to Stopped:
`Start` while running fails with the "scheduler already running" error and
changes nothing, and `Stop` while stopped is a no-op. -/
theorem C7_scheduler_state_machine :
    ∀ (loadRes : Except String Config) (s t : SchedState),
      s.running = true → t.running = false →
        schedulerStart loadRes s = (.error "scheduler already running", s) ∧
        schedulerStop t = t := by
  intro loadRes s t hs ht
  constructor
  · simp [schedulerStart, hs]
  · simp [schedulerStop, ht]

/-- Witness for C7 at a concrete running and a concrete stopped
scheduler. -/
theorem C7_scheduler_state_machine_witness :
    schedulerStart (.ok zeroConfig) ⟨true, []⟩ =
        (.error "scheduler already running", ⟨true, []⟩) ∧
      schedulerStop ⟨false, [{ name := "AxeOS Miners Collection", intervalSeconds := 300 }]⟩ =
        ⟨false, [{ name := "AxeOS Miners Collection", intervalSeconds := 300 }]⟩ :=
  C7_scheduler_state_machine (.ok zeroConfig) ⟨true, []⟩
    ⟨false, [{ name := "AxeOS Miners Collection", intervalSeconds := 300 }]⟩ rfl rfl

/-- Claim C2 counterexample: a negative configured collection interval
(here -5) yields an effective interval of 300 seconds, not the
`max(configured_seconds, 1) = 1` second the claim asserts. -/
theorem C2_negative_interval_counterexample :
    scheduledIntervalSeconds (-5) = 300 ∧ max (-5 : Int) 1 = 1 ∧
      (300 : Int) ≠ max (-5 : Int) 1 := by
  refine ⟨by decide, by decide, by decide⟩

/-- Claim C2 (amended): the effective task interval is the configured
number of seconds when that is positive and 300 seconds (the documented
default) otherwise — including every negative configured value — so it is
never zero or a busy loop; and every task registered by `registerTasks`
carries that effective interval. -/
theorem C2_interval_amended :
    (∀ n : Int, scheduledIntervalSeconds n = (if 0 < n then n else 300) ∧
      1 ≤ scheduledIntervalSeconds n) ∧
    ∀ cfg : Config,
      ((registerTasks cfg).all
        (fun t => t.intervalSeconds == effectiveIntervalSeconds cfg)) = true := by
  constructor
  · intro n
    have h : scheduledIntervalSeconds n = (if 0 < n then n else 300) := by
      simp only [scheduledIntervalSeconds, effectiveIntervalSeconds, applyDefaults,
        zeroConfig]
      by_cases h0 : n = 0
      · simp [h0]
      · simp only [h0, if_false]
    refine ⟨h, ?_⟩
    rw [h]
    split <;> omega
  · intro cfg
    simp only [registerTasks]
    split_ifs <;> simp [List.all_append]

/-- Claim C5 counterexample: in both write operations the write lock is in
fact held while file I/O runs — already a successful `LoadConfig` performs
its `os.ReadFile` between `mu.Lock` and `mu.Unlock`, and `UpdateConfig`
likewise reads and writes the file under the lock. -/
theorem C5_lock_held_during_io_counterexample :
    ioUnderLock 0 (loadConfigEvents true true) = true ∧
      ioUnderLock 0 (updateConfigEvents true true true true true true) = true := by
  decide

/-- Claim C5 (amended): the write lock is held across the file I/O of both
`LoadConfig` and `UpdateConfig` (not only around the snapshot swap), on
every success/failure path; `UpdateConfig` releases the lock only around
its nested reload, which re-acquires it. -/
theorem C5_lock_discipline_amended :
    ∀ r p m w rr rp : Bool,
      ioUnderLock 0 (loadConfigEvents r p) = true ∧
        ioUnderLock 0 (updateConfigEvents r p m w rr rp) = true := by
  decide

/-- Claim C4 counterexample: `dynamicHandler.ServeHTTP` takes no lock, so
two requests that interleave in the transition window (both read
`isBootstrapMode` before either clears it) both perform the one-time
initialization: the init count reaches 2, refuting "executed at most once
— only the first request to observe the transition performs it". -/
theorem C4_double_init_counterexample :
    (runSched true gateStart racySched).1.initCount = 2 ∧
      (runSched true gateStart racySched).1.answered = 2 := by
  decide

/-- Claim C4 (amended): during the transition window every concurrent
request is still answered and the initialization runs between once and
once per request (at most twice for two requests), and it runs exactly
once whenever the requests are serialized; the at-most-once guarantee of
the claim only holds in the serialized case, since `ServeHTTP` guards the
transition with no lock. -/
theorem C4_gate_amended :
    allCompleteScheds.all gateCheck = true ∧
      (runSched true gateStart serialSched01).1.initCount = 1 ∧
      (runSched true gateStart serialSched10).1.initCount = 1 := by
  decide

/-- Claim C1: the aggregate fan-out yields exactly one outcome per
configured peer — for AxeOS instances and for Mining Core instances alike
— and the outcome at every position is determined solely by that peer and
its own fetch result, whatever mixture of network errors, non-200 statuses
and malformed payloads the fetches produce. -/
theorem C1_fanout_one_outcome_per_peer :
    ∀ (fetch : String → String → HttpGetResult)
      (instances mcInstances : List (List (String × String))),
      (fanOutMiners fetch instances).length = (axeosPeers instances).length ∧
      (∀ i : Nat, (fanOutMiners fetch instances)[i]? =
        ((axeosPeers instances)[i]?).map
          (fun p => minerOutcome p.1 (fetch p.1 p.2))) ∧
      (fanOutMiningCore fetch mcInstances).length = mcInstances.flatten.length ∧
      ∀ i : Nat, (fanOutMiningCore fetch mcInstances)[i]? =
        (mcInstances.flatten[i]?).map
          (fun p => miningCoreOutcome p.1 (fetch p.1 p.2)) := by
  intro fetch instances mcInstances
  refine ⟨?_, fun i => ?_, ?_, fun i => ?_⟩
  · exact List.length_map _ _
  · simp only [fanOutMiners, List.getElem?_map]
  · exact List.length_map _ _
  · simp only [fanOutMiningCore, List.getElem?_map]

/-- If no entry of `m` has key `k`, then lookup finds nothing. -/
theorem lookup_of_any_eq_false {V : Type} (m : List (String × V)) (k : String)
    (h : m.any (fun p => p.1 == k) = false) : m.lookup k = none := by
  rw [List.lookup_eq_none_iff]
  intro p hp
  simp only [List.any_eq_false] at h
  have hpk := h p hp
  simp only [bne_iff_ne, ne_eq]
  intro he
  exact hpk (by simp [he])

/-- The overwrite branch of `mapSet`: mapping the entry with key `k` to
`(k, v)` makes lookup of `k` find `v`, provided such an entry exists. -/
theorem lookup_map_overwrite {V : Type} (k : String) (v : V) :
    ∀ m : List (String × V), m.any (fun p => p.1 == k) = true →
      (m.map (fun p => if p.1 == k then (k, v) else p)).lookup k = some v := by
  intro m
  induction m with
  | nil => intro h; simp at h
  | cons a t ih =>
    intro h
    obtain ⟨a1, a2⟩ := a
    by_cases hk : a1 = k
    · subst hk
      simp
    · have hk2 : (a1 == k) = false := by simp [hk]
      have h2 : t.any (fun p => p.1 == k) = true := by
        simpa [List.any_cons, hk2] using h
      have hka : (k == a1) = false := by simp [Ne.symm hk]
      simp only [List.map_cons, hk2, Bool.false_eq_true, if_false,
        List.lookup_cons, hka]
      exact ih h2

/-- The overwrite branch of `mapSet` leaves every other key alone. -/
theorem lookup_map_overwrite_ne {V : Type} (k k2 : String) (v : V)
    (hne : k2 ≠ k) :
    ∀ m : List (String × V),
      (m.map (fun p => if p.1 == k then (k, v) else p)).lookup k2 =
        m.lookup k2 := by
  intro m
  induction m with
  | nil => rfl
  | cons a t ih =>
    obtain ⟨a1, a2⟩ := a
    have hne2 : (k2 == k) = false := by simp [hne]
    by_cases hk : a1 = k
    · subst hk
      simp only [List.map_cons, beq_self_eq_true, if_true, List.lookup_cons,
        hne2]
      exact ih
    · have hk2 : (a1 == k) = false := by simp [hk]
      simp only [List.map_cons, hk2, Bool.false_eq_true, if_false,
        List.lookup_cons]
      cases hx : (k2 == a1) with
      | true => simp only [hx]
      | false =>
        simp only [hx]
        exact ih

/-- Go map assignment semantics of `mapSet`: afterwards `k` maps to `v`. -/
theorem lookup_mapSet_self {V : Type} (m : List (String × V)) (k : String)
    (v : V) : (mapSet m k v).lookup k = some v := by
  unfold mapSet
  cases hany : m.any (fun p => p.1 == k) with
  | false =>
    simp only [Bool.false_eq_true, if_false]
    rw [List.lookup_append, lookup_of_any_eq_false m k hany]
    simp
  | true =>
    simp only [if_true]
    exact lookup_map_overwrite k v m hany

/-- Go map assignment semantics of `mapSet`: other keys are unchanged. -/
theorem lookup_mapSet_ne {V : Type} (m : List (String × V)) (k k2 : String)
    (v : V) (hne : k2 ≠ k) : (mapSet m k v).lookup k2 = m.lookup k2 := by
  unfold mapSet
  cases hany : m.any (fun p => p.1 == k) with
  | false =>
    simp only [Bool.false_eq_true, if_false]
    rw [List.lookup_append]
    have hne2 : (k2 == k) = false := by simp [hne]
    have hone : ([(k, v)] : List (String × V)).lookup k2 = none := by
      simp [List.lookup_cons, hne2]
    rw [hone]
    cases m.lookup k2 <;> rfl
  | true =>
    simp only [if_true]
    exact lookup_map_overwrite_ne k k2 v hne m

/-- Characterization of the `UpdateConfig` patch loop: a key of the patch
ends up with (exactly) its patch value, every other key keeps its base
value. -/
theorem lookup_applyUpdates {V : Type} :
    ∀ (updates base : List (String × V)), (updates.map Prod.fst).Nodup →
      ∀ k, (applyUpdates base updates).lookup k =
        match updates.lookup k with
        | some v => some v
        | none => base.lookup k := by
  intro updates
  induction updates with
  | nil => intro base h k; rfl
  | cons u rest ih =>
    intro base h k
    obtain ⟨k0, v0⟩ := u
    simp only [List.map_cons, List.nodup_cons] at h
    obtain ⟨hk0, hrest⟩ := h
    have heq : applyUpdates base ((k0, v0) :: rest) =
        applyUpdates (mapSet base k0 v0) rest := rfl
    rw [heq, ih (mapSet base k0 v0) hrest k]
    by_cases hk : k = k0
    · subst hk
      have hnone : rest.lookup k = none := by
        rw [List.lookup_eq_none_iff]
        intro p hp
        simp only [bne_iff_ne, ne_eq]
        intro he
        exact hk0 (by rw [he]; exact List.mem_map_of_mem Prod.fst hp)
      rw [hnone]
      simp [lookup_mapSet_self]
    · have hkb : (k == k0) = false := by simp [hk]
      rw [List.lookup_cons]
      simp only [hkb]
      rw [lookup_mapSet_ne base k0 k v0 hk]

/-- Claim C6: `Manager.UpdateConfig` merges the patch into the on-disk
object key-by-key at the top level only — absent patch keys are added,
present keys have their whole value replaced, nothing is deep-merged —
then writes the merged object back and performs a full load, so the final
snapshot is exactly a fresh parse (with defaults) of the written file. -/
theorem C6_merge_is_shallow_key_overwrite :
    ∀ (V : Type) (ops : ConfigOps V) (updates base : List (String × V))
      (s : StoreState) (data raw : String) (cfg : Config),
      (updates.map Prod.fst).Nodup →
      s.file = .ok data → ops.parseMap data = .ok base →
      ops.marshalIndent (applyUpdates base updates) = .ok raw →
      ops.writeFails = false → ops.parseConfig raw = .ok cfg →
      (∀ k, (applyUpdates base updates).lookup k =
        match updates.lookup k with
        | some v => some v
        | none => base.lookup k) ∧
      updateConfigOp ops updates s =
        (.ok (), ⟨.ok raw, { config := some (applyDefaults cfg) }⟩) := by
  intro V ops updates base s data raw cfg hnd hf hp hm hw hpc
  refine ⟨lookup_applyUpdates updates base hnd, ?_⟩
  unfold updateConfigOp loadConfigOp
  rw [hf]
  simp only [hp, hm, hw, Bool.false_eq_true, if_false, hpc]

/-- Witness for C6 at a concrete patch \x7b a ↦ 20, b ↦ 30\x7d over the
base \x7b a ↦ 1, c ↦ 3\x7d: `a` is overwritten wholesale, `b` is added,
`c` keeps its base value, and the snapshot is the fresh parse of the
written file. -/
theorem C6_merge_is_shallow_key_overwrite_witness :
    (applyUpdates [("a", (1 : Int)), ("c", 3)]
        [("a", 20), ("b", 30)]).lookup "a" = some 20 ∧
    (applyUpdates [("a", (1 : Int)), ("c", 3)]
        [("a", 20), ("b", 30)]).lookup "b" = some 30 ∧
    (applyUpdates [("a", (1 : Int)), ("c", 3)]
        [("a", 20), ("b", 30)]).lookup "c" = some 3 ∧
    updateConfigOp
      ⟨fun _ => .ok zeroConfig, fun _ => .ok [("a", (1 : Int)), ("c", 3)],
        fun _ => .ok "RAW", false⟩
      [("a", 20), ("b", 30)] ⟨.ok "D", newManager⟩ =
      (.ok (), ⟨.ok "RAW", { config := some (applyDefaults zeroConfig) }⟩) := by
  have h := C6_merge_is_shallow_key_overwrite Int
    ⟨fun _ => .ok zeroConfig, fun _ => .ok [("a", (1 : Int)), ("c", 3)],
      fun _ => .ok "RAW", false⟩
    [("a", 20), ("b", 30)] [("a", (1 : Int)), ("c", 3)]
    ⟨.ok "D", newManager⟩ "D" "RAW" zeroConfig
    (by decide) rfl rfl rfl rfl rfl
  exact ⟨by rw [h.1 "a"]; rfl, by rw [h.1 "b"]; rfl, by rw [h.1 "c"]; rfl, h.2⟩

/-- Claim C10: for a configured node, `RPCClient.CallRPC` fails exactly
when the transport request fails, the body is empty, the body does not
parse as a JSON-RPC response, or the parsed response carries a non-nil
error field; the HTTP status code alone is never a failure, so any status
code whose body is a well-formed JSON-RPC success yields the result. -/
theorem C10_callrpc_error_conditions :
    ∀ (rpcConfig : Option (List RPCNodeConfig))
      (loadRes : Except String (List RPCNodeConfig)) (nodeID : String)
      (transport : RPCNodeConfig → TransportResult)
      (parse : String → Option RPCResponse)
      (nodes : List RPCNodeConfig) (node : RPCNodeConfig),
      (match rpcConfig with
        | none => loadRes
        | some c => Except.ok c) = .ok nodes →
      nodes.find? (fun n => n.nodeID == nodeID) = some node →
      isErr (callRPC rpcConfig loadRes nodeID transport parse) =
        specRPCFailure parse (transport node) ∧
      ∀ (statusCode : Nat) (body : String) (r : RPCResponse),
        body.length ≠ 0 → parse body = some r → r.rpcErrField = none →
          handleRPCResponse parse (.success statusCode body) = .ok r.result := by
  intro rpcConfig loadRes nodeID transport parse nodes node hcfg hfind
  constructor
  · have hcall : callRPC rpcConfig loadRes nodeID transport parse =
        handleRPCResponse parse (transport node) := by
      simp only [callRPC, hcfg, getRPCConnectionDetails, hfind]
    rw [hcall]
    cases htr : transport node with
    | failure msg => rfl
    | success statusCode body =>
      unfold handleRPCResponse specRPCFailure
      by_cases hb : body.length = 0
      · simp [hb, isErr]
      · simp only [hb, if_false]
        cases hp : parse body with
        | none => simp [isErr]
        | some r =>
          cases hr : r.rpcErrField with
          | none => simp [isErr, hr]
          | some e2 => simp [isErr, hr]
  · intro statusCode body r hb hp hr
    unfold handleRPCResponse
    simp [hb, hp, hr]

/-- Witness for C10 at a concrete non-2xx transport: status 500 with the
well-formed success body "B" is a success, and the failure condition
coincides with the code on that input. -/
theorem C10_callrpc_error_conditions_witness :
    isErr (callRPC (some [wNode]) (.ok []) "n1"
        (fun _ => .success 500 "B") wParse) =
      specRPCFailure wParse (.success 500 "B") ∧
    handleRPCResponse wParse (.success 500 "B") = .ok JValue.null := by
  have h := C10_callrpc_error_conditions (some [wNode]) (.ok []) "n1"
    (fun _ => .success 500 "B") wParse [wNode] wNode rfl rfl
  exact ⟨h.1, h.2 500 "B"
    { result := .null, rpcErrField := none, id := "axeos-dashboard" }
    (by decide) rfl rfl⟩

/-- A prefix is an infix. -/
theorem isInfix_of_isPrefix {α : Type} {l1 l2 : List α} (h : l1 <+: l2) :
    l1 <:+: l2 := by
  obtain ⟨t, ht⟩ := h
  exact ⟨[], t, by simpa using ht⟩

/-- An infix of the right part of an append is an infix of the whole. -/
theorem isInfix_append_of_isInfix {α : Type} (x : List α) {l r : List α}
    (h : l <:+: r) : l <:+: x ++ r :=
  h.trans (List.suffix_append x r).isInfix

/-- The wrappers of the four RPC getters preserve failure. -/
theorem isErr_getBlockchainInfo (nodeID : String) (raw : Except String JValue) :
    isErr (getBlockchainInfo nodeID raw) = isErr raw := by
  cases raw <;> rfl

/-- `getNetworkTotals` preserves failure. -/
theorem isErr_getNetworkTotals (nodeID : String) (raw : Except String JValue) :
    isErr (getNetworkTotals nodeID raw) = isErr raw := by
  cases raw <;> rfl

/-- `getBalance` preserves failure. -/
theorem isErr_getBalance (nodeID : String) (raw : Except String JValue) :
    isErr (getBalance nodeID raw) = isErr raw := by
  cases raw <;> rfl

/-- `getNetworkInfo` preserves failure. -/
theorem isErr_getNetworkInfo (nodeID : String) (raw : Except String JValue) :
    isErr (getNetworkInfo nodeID raw) = isErr raw := by
  cases raw <;> rfl

/-- Claim C8: per crypto node, the aggregation is all-or-nothing over its
four RPC sub-calls — status "Error" exactly when at least one sub-call
fails, with every failed sub-call's error text appearing in the
concatenated message, and the success status with all four payloads (and
the display fields) exactly when all sub-calls succeed — and the full
fan-out maps each configured node to its own outcome independently. -/
theorem C8_crypto_per_node_all_or_nothing :
    ∀ (rpc rpcOk : String → String → Except String JValue) (nc : NodeConfig)
      (df : Option JValue),
      ((fetchCryptoNodeData rpc nc df).status = "Error" ↔
        (isErr (rpc nc.nodeID "getblockchaininfo") ||
          isErr (rpc nc.nodeID "getnettotals") ||
          isErr (rpc nc.nodeID "getbalance") ||
          isErr (rpc nc.nodeID "getnetworkinfo")) = true) ∧
      ((isErr (rpcOk nc.nodeID "getblockchaininfo") ||
          isErr (rpcOk nc.nodeID "getnettotals") ||
          isErr (rpcOk nc.nodeID "getbalance") ||
          isErr (rpcOk nc.nodeID "getnetworkinfo")) = false →
        (fetchCryptoNodeData rpcOk nc df).status = "online" ∧
        (fetchCryptoNodeData rpcOk nc df).blockchainInfo =
          (rpcOk nc.nodeID "getblockchaininfo").toOption ∧
        (fetchCryptoNodeData rpcOk nc df).networkTotals =
          (rpcOk nc.nodeID "getnettotals").toOption ∧
        (fetchCryptoNodeData rpcOk nc df).balance =
          (rpcOk nc.nodeID "getbalance").toOption ∧
        (fetchCryptoNodeData rpcOk nc df).networkInfo =
          (rpcOk nc.nodeID "getnetworkinfo").toOption ∧
        (fetchCryptoNodeData rpcOk nc df).displayFields = df) ∧
      (∀ e, rpc nc.nodeID "getblockchaininfo" = .error e →
        e.data <:+: (fetchCryptoNodeData rpc nc df).message.data) ∧
      (∀ e, rpc nc.nodeID "getnettotals" = .error e →
        e.data <:+: (fetchCryptoNodeData rpc nc df).message.data) ∧
      (∀ e, rpc nc.nodeID "getbalance" = .error e →
        e.data <:+: (fetchCryptoNodeData rpc nc df).message.data) ∧
      (∀ e, rpc nc.nodeID "getnetworkinfo" = .error e →
        e.data <:+: (fetchCryptoNodeData rpc nc df).message.data) ∧
      ∀ (cfg : Config) (items : List JValue),
        cfg.cryptNodesEnabled = true → cfg.cryptoNodes = .arr items →
        collectNodes items ≠ [] →
        fetchAllCryptoNodes rpc cfg =
          (collectNodes items).map
            (fun n => fetchCryptoNodeData rpc n (collectDisplayFields items)) := by
  intro rpc rpcOk nc df
  refine ⟨?_, ?_, ?_, ?_, ?_, ?_, ?_⟩
  · -- status characterization
    simp only [fetchCryptoNodeData, isErr_getBlockchainInfo, isErr_getNetworkTotals,
      isErr_getBalance, isErr_getNetworkInfo]
    cases hC : (isErr (rpc nc.nodeID "getblockchaininfo") ||
        isErr (rpc nc.nodeID "getnettotals") ||
        isErr (rpc nc.nodeID "getbalance") ||
        isErr (rpc nc.nodeID "getnetworkinfo")) <;> simp [hC]
  · -- all sub-calls succeed
    intro h
    cases hbc : rpcOk nc.nodeID "getblockchaininfo" with
    | error e1 => rw [hbc] at h; simp [isErr] at h
    | ok v1 =>
      cases hnt : rpcOk nc.nodeID "getnettotals" with
      | error e2 => rw [hnt] at h; simp [isErr] at h
      | ok v2 =>
        cases hbal : rpcOk nc.nodeID "getbalance" with
        | error e3 => rw [hbal] at h; simp [isErr] at h
        | ok v3 =>
          cases hni : rpcOk nc.nodeID "getnetworkinfo" with
          | error e4 => rw [hni] at h; simp [isErr] at h
          | ok v4 =>
            refine ⟨?_, ?_, ?_, ?_, ?_, ?_⟩ <;>
              simp [fetchCryptoNodeData, hbc, hnt, hbal, hni, getBlockchainInfo,
                getNetworkTotals, getBalance, getNetworkInfo, isErr,
                Except.toOption]
  · -- blockchain-info error text appears in the message
    intro e he
    simp only [fetchCryptoNodeData, he, getBlockchainInfo, isErr, Bool.true_or,
      if_true, cryptoErrMsg, String.data_append]
    simp only [List.append_assoc]
    repeat
      first
      | exact List.infix_rfl
      | exact isInfix_of_isPrefix (List.prefix_append _ _)
      | refine isInfix_append_of_isInfix _ ?_
  · -- network-totals error text appears in the message
    intro e he
    simp only [fetchCryptoNodeData, he, getNetworkTotals, isErr, Bool.or_true,
      Bool.true_or, if_true, cryptoErrMsg, String.data_append]
    simp only [List.append_assoc]
    repeat
      first
      | exact List.infix_rfl
      | exact isInfix_of_isPrefix (List.prefix_append _ _)
      | refine isInfix_append_of_isInfix _ ?_
  · -- balance error text appears in the message
    intro e he
    simp only [fetchCryptoNodeData, he, getBalance, isErr, Bool.or_true,
      Bool.true_or, if_true, cryptoErrMsg, String.data_append]
    simp only [List.append_assoc]
    repeat
      first
      | exact List.infix_rfl
      | exact isInfix_of_isPrefix (List.prefix_append _ _)
      | refine isInfix_append_of_isInfix _ ?_
  · -- network-info error text appears in the message
    intro e he
    simp only [fetchCryptoNodeData, he, getNetworkInfo, isErr, Bool.or_true,
      Bool.true_or, if_true, cryptoErrMsg, String.data_append]
    simp only [List.append_assoc]
    repeat
      first
      | exact List.infix_rfl
      | exact isInfix_of_isPrefix (List.prefix_append _ _)
      | refine isInfix_append_of_isInfix _ ?_
  · -- full fan-out: one outcome per parsed node
    intro cfg items hen harr hnodes
    have hlen0 : items.length ≠ 0 := by
      intro h0
      rw [List.length_eq_zero] at h0
      rw [h0] at hnodes
      exact hnodes rfl
    have hlen1 : (collectNodes items).length ≠ 0 := by
      simpa [List.length_eq_zero] using hnodes
    simp [fetchAllCryptoNodes, hen, harr, hlen0, hlen1]

/-- Witness for C8: with every sub-call failing the node reports `Error`
and the message carries the sub-call errors; with every sub-call
succeeding it reports `online`; the fan-out maps the one configured node
to its own outcome. -/
theorem C8_crypto_per_node_all_or_nothing_witness :
    (fetchCryptoNodeData wFailRpc wNodeCfg none).status = "Error" ∧
    (fetchCryptoNodeData wOkRpc wNodeCfg none).status = "online" ∧
    ("boom".data <:+: (fetchCryptoNodeData wFailRpc wNodeCfg none).message.data) ∧
    fetchAllCryptoNodes wFailRpc wCfg =
      (collectNodes wItems).map
        (fun n => fetchCryptoNodeData wFailRpc n (collectDisplayFields wItems)) := by
  have h := C8_crypto_per_node_all_or_nothing wFailRpc wOkRpc wNodeCfg none
  refine ⟨h.1.mpr rfl, (h.2.1 rfl).1, h.2.2.1 "boom" rfl, ?_⟩
  exact h.2.2.2.2.2.2 wCfg wItems rfl rfl (by decide)

end AxeosDashboard
